import Mathlib

/-!
Verification development for the query-interpreter and backend-gateway layer
of the `We-make-devs` frontend (file `src/services/api.js`).

The JavaScript functions are shallowly embedded over `List Char` / `String`:
 - `parseUserQuery` (api.js lines 109-208) including a faithful model of the
   backtracking semantics of the regex `(.+)\s+(?:in|at|near)\s+(.+)` with the
   `i` flag, of `String.prototype.replace` with the three cleanup regexes, of
   `trim`, `toLowerCase`, `split(" ")` and the hardcoded city list;
 - the HTTP gateway (`apiFetch`, the six exported operations, and the CSV
   variants with their own duplicated try/catch blocks), parameterised by a
   mocked transport layer `String -> FetchOutcome`.
-/

set_option maxRecDepth 16384

namespace ApiJs

/-! ## JavaScript character classes (ECMAScript `\s`, line terminators) -/

/-- Code points matched by ECMAScript `\s` (WhiteSpace and LineTerminator):
tab, LF, VT, FF, CR, space, NBSP, U+1680, U+2000-U+200A, LS, PS, U+202F,
U+205F, U+3000, BOM. -/
def wsCode (n : Nat) : Bool :=
  n = 9 || n = 10 || n = 11 || n = 12 || n = 13 || n = 32 || n = 160 ||
  n = 5760 || (decide (8192 ≤ n) && decide (n ≤ 8202)) || n = 8232 ||
  n = 8233 || n = 8239 || n = 8287 || n = 12288 || n = 65279

/-- JS whitespace test (`\s`, also the set removed by `String.prototype.trim`). -/
def isWs (c : Char) : Bool := wsCode c.toNat

/-- ECMAScript LineTerminator (LF, CR, LS, PS) — the characters `.` does not match. -/
def isLineTerm (c : Char) : Bool :=
  c.toNat = 10 || c.toNat = 13 || c.toNat = 8232 || c.toNat = 8233

/-- Characters matched by `.` (without the `s` flag): everything but a line terminator. -/
def isDot (c : Char) : Bool := !(isLineTerm c)

/-- `String.prototype.trim`: strip leading and trailing `\s` characters. -/
def jsTrim (l : List Char) : List Char :=
  ((l.dropWhile isWs).reverse.dropWhile isWs).reverse

/-- `s.charAt(0).toUpperCase() + s.slice(1)` (ASCII model of `toUpperCase`). -/
def capFirst : List Char → List Char
  | [] => []
  | c :: t => c.toUpper :: t

/-- Length of the maximal leading whitespace run (what a greedy `\s+` consumes). -/
def wsRun (l : List Char) : Nat := (l.takeWhile isWs).length

/-- Length of the maximal leading `.`-run (what a greedy `(.+)` can consume). -/
def dotRun (l : List Char) : Nat := (l.takeWhile isDot).length

/-! ## The primary pattern `/(.+)\s+(?:in|at|near)\s+(.+)/i`

JS regex semantics: the match starts at the leftmost possible position; there
the greedy `(.+)` takes the longest length for which the rest of the pattern
still matches; `\s+` before the connector necessarily stops at the first
non-whitespace character (the connectors start with non-whitespace letters);
the alternation tries `in`, `at`, `near` in order (at a fixed position at most
one can match); the second `\s+` backtracks from its maximal run until a
character matchable by `.` follows, and the final greedy `(.+)` then takes the
maximal `.`-run. -/

/-- Case-insensitive prefix test against a lowercase pattern (ASCII model of
the regex `i` flag canonicalisation). -/
def startsWithCI (pat l : List Char) : Bool :=
  decide ((l.take pat.length).map Char.toLower = pat)

/-- Match the alternation `(?:in|at|near)` (case-insensitive, in regex order)
at the head of `l`; return the length of the matched connector. -/
def connAt (l : List Char) : Option Nat :=
  if startsWithCI "in".toList l then some 2
  else if startsWithCI "at".toList l then some 2
  else if startsWithCI "near".toList l then some 4
  else none

/-- Backtracking of the second `\s+` followed by `(.+)`: try to leave the
suffix after `j` consumed whitespace characters, decreasing `j`, and return
the maximal `.`-run of the first suffix whose head `.` can match. -/
def ws2Search (l2 : List Char) : Nat → Option (List Char)
  | 0 => none
  | j + 1 =>
    match l2.drop (j + 1) with
    | [] => ws2Search l2 j
    | c :: t => if isDot c then some ((c :: t).takeWhile isDot) else ws2Search l2 j

/-- Match `\s+(?:in|at|near)\s+(.+)` at the head of `l`, returning group 2. -/
def tailMatch (l : List Char) : Option (List Char) :=
  if wsRun l = 0 then none
  else
    match connAt (l.drop (wsRun l)) with
    | none => none
    | some k =>
      ws2Search ((l.drop (wsRun l)).drop k) (wsRun ((l.drop (wsRun l)).drop k))

/-- Greedy search for group 1: try group-1 length `n`, `n-1`, ..., `1` and
return the first split whose tail matches the rest of the pattern. -/
def g1Search (s : List Char) : Nat → Option (List Char × List Char)
  | 0 => none
  | n + 1 =>
    match tailMatch (s.drop (n + 1)) with
    | some g2 => some (s.take (n + 1), g2)
    | none => g1Search s n

/-- First (leftmost-starting) match of `/(.+)\s+(?:in|at|near)\s+(.+)/i`,
returning the two captured groups. -/
def reMatch : List Char → Option (List Char × List Char)
  | [] => none
  | c :: t =>
    match g1Search (c :: t) (dotRun (c :: t)) with
    | some r => some r
    | none => reMatch t

/-! ## Fallback pattern: the hardcoded city list -/

/-- The hardcoded `commonCities` array (api.js lines 114-154), in order. -/
def commonCities : List (List Char) :=
  ["mumbai".toList, "delhi".toList, "bangalore".toList, "bengaluru".toList,
   "hyderabad".toList, "ahmedabad".toList, "chennai".toList, "kolkata".toList,
   "surat".toList, "pune".toList, "jaipur".toList, "lucknow".toList,
   "kanpur".toList, "nagpur".toList, "indore".toList, "thane".toList,
   "bhopal".toList, "visakhapatnam".toList, "pimpri".toList, "patna".toList,
   "vadodara".toList, "nashik".toList, "meerut".toList, "rajkot".toList,
   "varanasi".toList, "srinagar".toList, "aurangabad".toList, "dhanbad".toList,
   "amritsar".toList, "allahabad".toList, "gwalior".toList, "jabalpur".toList,
   "coimbatore".toList, "vijayawada".toList, "jodhpur".toList, "madurai".toList,
   "raipur".toList, "kota".toList, "guwahati".toList]

/-- `String.prototype.indexOf`: index of the first occurrence of `pat`. -/
def indexOfSub : List Char → List Char → Option Nat
  | [], pat => if pat = [] then some 0 else none
  | c :: t, pat =>
    if pat.isPrefixOf (c :: t) then some 0 else (indexOfSub t pat).map (· + 1)

/-- The pattern-2 loop (api.js lines 170-178): first city of the list occurring
in the lowercased query wins; the business type is the original-case text
before the first occurrence, trimmed. -/
def cityScan (orig lower : List Char) : List (List Char) → Option (List Char) × Option (List Char)
  | [] => (none, none)
  | city :: rest =>
    match indexOfSub lower city with
    | some idx => (some (jsTrim (orig.take idx)), some (capFirst city))
    | none => cityScan orig lower rest

/-! ## Cleanup passes -/

/-- Alternatives of the leading-filler regex (in alternation order). -/
def fillerAlts : List (List Char) :=
  ["open".toList, "start".toList, "opening".toList, "starting".toList,
   "find".toList, "search".toList, "looking for".toList, "look for".toList,
   "tell me about".toList, "show me".toList]

/-- Alternatives of the article regex `^(a|an|the)\s+`. -/
def articleAlts : List (List Char) := ["a".toList, "an".toList, "the".toList]

/-- Alternatives of the preposition regexes (`in|at|near`). -/
def prepAlts : List (List Char) := ["in".toList, "at".toList, "near".toList]

/-- `b.replace(/^(alt1|alt2|...)\s+/i, "")`: drop the first alternative that is
a case-insensitive prefix followed by at least one whitespace character,
together with the whole (greedy) whitespace run after it. -/
def dropAltCI : List (List Char) → List Char → List Char
  | [], b => b
  | alt :: rest, b =>
    if startsWithCI alt b ∧ wsRun (b.drop alt.length) ≠ 0 then
      (b.drop alt.length).drop (wsRun (b.drop alt.length))
    else dropAltCI rest b

/-- Does `/\s+(in|at|near)\s*$/i` match starting exactly here? -/
def prepSuffixAt (t : List Char) : Bool :=
  if wsRun t = 0 then false
  else
    match connAt (t.drop (wsRun t)) with
    | some k => ((t.drop (wsRun t)).drop k).all isWs
    | none => false

/-- Leftmost start position of a `/\s+(in|at|near)\s*$/i` match. -/
def findPrep : List Char → Option Nat
  | [] => none
  | c :: t => if prepSuffixAt (c :: t) then some 0 else (findPrep t).map (· + 1)

/-- `b.replace(/\s+(in|at|near)\s*$/i, "")`. -/
def stripTrailPrep (b : List Char) : List Char :=
  match findPrep b with
  | some p => b.take p
  | none => b

/-- `l.replace(/^(in|at|near)\s+/i, "")`. -/
def stripLeadPrep (l : List Char) : List Char := dropAltCI prepAlts l

/-- The business-type cleanup chain (api.js lines 183-190): strip one leading
filler phrase, one trailing preposition, one leading article, then trim. -/
def bizCleanup (b : List Char) : List Char :=
  jsTrim (dropAltCI articleAlts (stripTrailPrep (dropAltCI fillerAlts b)))

/-- `String.prototype.split(" ")` (split on the single space character,
keeping empty fragments, as JS does). -/
def splitSp : List Char → List (List Char)
  | [] => [[]]
  | c :: t =>
    match splitSp t with
    | [] => [[c]]
    | w :: ws => if c = ' ' then [] :: w :: ws else (c :: w) :: ws

/-- `word.charAt(0).toUpperCase() + word.slice(1).toLowerCase()`. -/
def titleWord : List Char → List Char
  | [] => []
  | c :: t => c.toUpper :: t.map Char.toLower

/-- `l.split(" ").map(titleWord).flatten(" ")`. -/
def titleWords (l : List Char) : List Char :=
  List.intercalate [' '] ((splitSp l).map titleWord)

/-- The location cleanup (api.js lines 195-200): strip one leading
preposition, trim, then title-case every space-separated word. -/
def locClean (l : List Char) : List Char :=
  titleWords (jsTrim (stripLeadPrep l))

/-! ## `parseUserQuery` -/

/-- The `ParsedQuery` object returned by `parseUserQuery`.  A field holds
`none` where the JS object holds `null`. -/
structure ParsedQuery where
  businessType : Option (List Char)
  location : Option (List Char)
  needsClarification : Bool
deriving DecidableEq, Repr

/-- JS truthiness of a string-or-null variable: `null` and `""` are falsy. -/
def jsFalsy : Option (List Char) → Bool
  | none => true
  | some [] => true
  | some (_ :: _) => false

/-- `x || null` for a string-or-null variable. -/
def orNull (o : Option (List Char)) : Option (List Char) :=
  if jsFalsy o then none else o

/-- `if (businessType) { businessType = cleanup(businessType) }`. -/
def cleanupBT? : Option (List Char) → Option (List Char)
  | none => none
  | some b => if b.isEmpty then some b else some (bizCleanup b)

/-- `if (location) { location = cleanup(location) }`. -/
def cleanupLoc? : Option (List Char) → Option (List Char)
  | none => none
  | some l => if l.isEmpty then some l else some (locClean l)

/-- `const originalQuery = query.trim()`. -/
def origQ (query : List Char) : List Char := jsTrim query

/-- `const lowerQuery = query.toLowerCase().trim()` (ASCII `toLowerCase`). -/
def lowerQ (query : List Char) : List Char := jsTrim (query.map Char.toLower)

/-- Pattern 1, else pattern 2 (api.js lines 159-179), producing the raw
(business type, location) candidates before cleanup. -/
def rawParse (orig lower : List Char) : Option (List Char) × Option (List Char) :=
  match reMatch orig with
  | some (g1, g2) => (some (jsTrim g1), some (capFirst (jsTrim g2)))
  | none => cityScan orig lower commonCities

/-- `parseUserQuery` (api.js lines 109-208). -/
def parseUserQuery (query : List Char) : ParsedQuery :=
  let p := rawParse (origQ query) (lowerQ query)
  let bt := cleanupBT? p.1
  let loc := cleanupLoc? p.2
  { businessType := orNull bt
    location := orNull loc
    needsClarification := jsFalsy bt || jsFalsy loc }

/-! ## Backend gateway (api.js lines 6-102 and 215-286)

The HTTP transport is mocked by a function `String → FetchOutcome` from the
requested URL to what `fetch` does there: either throw an error (carrying its
JS `name` and `message`) or return a response.  A response's JSON body is kept
abstract as a payload string; `detail` is the optional `detail` field of the
parsed error body (`none` when the body does not parse as JSON or has no such
field, which is what `.catch(() => ({}))` collapses to). -/

/-- An HTTP response as observed by the gateway code. -/
structure HttpResponse where
  ok : Bool
  status : Nat
  statusText : String
  detail : Option String
  jsonBody : String
deriving DecidableEq, Repr

/-- What the mocked `fetch` does for a given URL. -/
inductive FetchOutcome where
  | throw (name message : String)
  | respond (r : HttpResponse)
deriving DecidableEq, Repr

/-- A thrown JS `Error` as observed by a caller: its `name` and `message`. -/
structure JsError where
  name : String
  message : String
deriving DecidableEq, Repr

/-- `String.prototype.includes`. -/
def strContains (h pat : String) : Bool := (indexOfSub h.toList pat.toList).isSome

/-- `errorData.detail || genPre + status + " " + statusText` (a missing or
empty `detail` is falsy). -/
def errMessage (genPre : String) (r : HttpResponse) : String :=
  match r.detail with
  | some d => if d.isEmpty then genPre ++ toString r.status ++ " " ++ r.statusText else d
  | none => genPre ++ toString r.status ++ " " ++ r.statusText

/-- The shared try/fetch/!ok/catch block (apiFetch lines 14-39; the same code
is duplicated with other message strings in `uploadCSV` lines 227-249 and
`chatWithCSV` lines 263-285): non-2xx responses become an `Error` whose
message is the `detail` field or the generic status line; an error whose name
is `TypeError` and whose message mentions `fetch` is replaced by the fixed
connectivity `Error`; everything else is rethrown unchanged. -/
def runFetch (genPre connMsg url : String) (http : String → FetchOutcome) :
    Except JsError String :=
  let attempt : Except JsError String :=
    match http url with
    | .throw n m => .error ⟨n, m⟩
    | .respond r =>
      if r.ok then .ok r.jsonBody else .error ⟨"Error", errMessage genPre r⟩
  match attempt with
  | .ok v => .ok v
  | .error e =>
    if e.name = "TypeError" ∧ strContains e.message "fetch" then
      .error ⟨"Error", connMsg⟩
    else .error e

/-- `const API_BASE_URL = ... || "http://localhost:8000"` (default). -/
def API_BASE_URL : String := "http://localhost:8000"

/-- `const CSV_API_BASE_URL = ... || "http://localhost:8001"` (default). -/
def CSV_API_BASE_URL : String := "http://localhost:8001"

/-- The connectivity message of `apiFetch` (lines 34-36). -/
def researchConnMsg : String :=
  "Unable to connect to the backend server. Please ensure the server is running."

/-- The connectivity message of the CSV operations (lines 244-246, 280-282). -/
def csvConnMsg : String :=
  "Unable to connect to the CSV analysis server. Please ensure the server is running on port 8001."

/-- `apiFetch(endpoint, options)` (lines 11-40). -/
def apiFetch (endpoint : String) (http : String → FetchOutcome) : Except JsError String :=
  runFetch "API Error: " researchConnMsg (API_BASE_URL ++ endpoint) http

/-! `URLSearchParams` serialisation (keys/values in
`application/x-www-form-urlencoded` encoding). -/

/-- Upper-case hex digit of a value below 16. -/
def hexDig (n : Nat) : Char := Char.ofNat (if n < 10 then 48 + n else 55 + n)

/-- UTF-8 bytes of a code point. -/
def utf8Enc (n : Nat) : List Nat :=
  if n < 128 then [n]
  else if n < 2048 then [192 + n / 64, 128 + n % 64]
  else if n < 65536 then [224 + n / 4096, 128 + (n / 64) % 64, 128 + n % 64]
  else [240 + n / 262144, 128 + (n / 4096) % 64, 128 + (n / 64) % 64, 128 + n % 64]

/-- Percent-encoding of one byte. -/
def pctByte (b : Nat) : List Char := ['%', hexDig (b / 16), hexDig (b % 16)]

/-- `URLSearchParams` encoding of one character: alphanumerics and `*-._` are
kept, space becomes `+`, everything else is percent-encoded by UTF-8 byte. -/
def encChar (c : Char) : List Char :=
  if c.isAlphanum || c = '*' || c = '-' || c = '.' || c = '_' then [c]
  else if c = ' ' then ['+']
  else ((utf8Enc c.toNat).map pctByte).flatten

/-- `URLSearchParams` encoding of one string. -/
def urlEncodeStr (s : String) : String := ⟨(s.toList.map encChar).flatten⟩

/-- `new URLSearchParams({...}).toString()`: `k1=v1&k2=v2&...`. -/
def mkParams : List (String × String) → String
  | [] => ""
  | [kv] => urlEncodeStr kv.1 ++ "=" ++ urlEncodeStr kv.2
  | kv :: kv' :: rest =>
    urlEncodeStr kv.1 ++ "=" ++ urlEncodeStr kv.2 ++ "&" ++ mkParams (kv' :: rest)

/-- JS boolean stringification. -/
def boolStr (b : Bool) : String := if b then "true" else "false"

/-- Options of `getComprehensiveResearch` (`none` models an absent field). -/
structure ResearchOptions where
  includeRawData : Option Bool := none
  useCache : Option Bool := none
deriving DecidableEq, Repr

/-- Options of `getCityOpportunities`. -/
structure CityOptions where
  includeAnalysis : Option Bool := none
  maxOpportunities : Option Nat := none
deriving DecidableEq, Repr

/-- `options.maxOpportunities || 5`: any falsy value (absent field or `0`)
falls back to `5`. -/
def jsOrFive : Option Nat → Nat
  | none => 5
  | some 0 => 5
  | some (n + 1) => n + 1

/-- The endpoint string of `getComprehensiveResearch` (lines 54-61). -/
def researchEndpoint (businessType location : String) (o : ResearchOptions) : String :=
  "/api/comprehensive-research?" ++
    mkParams [("business_type", businessType), ("location", location),
              ("include_raw_data", boolStr (o.includeRawData.getD false)),
              ("use_cache", boolStr (o.useCache.getD true))]

/-- `getComprehensiveResearch` (lines 49-62). -/
def getComprehensiveResearch (businessType location : String) (o : ResearchOptions)
    (http : String → FetchOutcome) : Except JsError String :=
  apiFetch (researchEndpoint businessType location o) http

/-- The query string of `getCityOpportunities` (lines 71-76). -/
def cityParams (city : String) (o : CityOptions) : String :=
  mkParams [("city", city),
            ("include_analysis", boolStr (o.includeAnalysis.getD true)),
            ("max_opportunities", toString (jsOrFive o.maxOpportunities))]

/-- `getCityOpportunities` (lines 70-79). -/
def getCityOpportunities (city : String) (o : CityOptions)
    (http : String → FetchOutcome) : Except JsError String :=
  apiFetch ("/api/city-opportunities?" ++ cityParams city o) http

/-- `getRawScrapedData` (lines 87-94). -/
def getRawScrapedData (businessType location : String)
    (http : String → FetchOutcome) : Except JsError String :=
  apiFetch ("/api/raw-scraped-data?" ++
    mkParams [("business_type", businessType), ("location", location)]) http

/-- `checkHealth` (lines 100-102). -/
def checkHealth (http : String → FetchOutcome) : Except JsError String :=
  apiFetch "/health" http

/-- `uploadCSV` (lines 223-250); the multipart body is irrelevant to the
control flow modelled here. -/
def uploadCSV (_file : String) (http : String → FetchOutcome) : Except JsError String :=
  runFetch "CSV Upload Error: " csvConnMsg (CSV_API_BASE_URL ++ "/upload_csv") http

/-- `chatWithCSV` (lines 258-286). -/
def chatWithCSV (_sessionId _userMessage : String)
    (http : String → FetchOutcome) : Except JsError String :=
  runFetch "CSV Chat Error: " csvConnMsg (CSV_API_BASE_URL ++ "/chat") http

/-! ## Auxiliary predicates used in theorem statements -/

/-- A `ParsedQuery` field is never the empty string (it is `null` instead). -/
def notEmptyField : Option (List Char) → Bool
  | some [] => false
  | _ => true

/-- Neither end of `l` is a whitespace character (`l.trim() = l`). -/
def noEdgeWs (l : List Char) : Bool :=
  (match l.head? with | some x => !isWs x | none => true) &&
  (match l.getLast? with | some x => !isWs x | none => true)

/-- No viable `\s+(in|at|near)\s+(.+)` tail starts strictly after position
`alen` of `s`: the greedy group 1 therefore cannot extend past `alen`. -/
def noLaterSplitB (alen : Nat) (s : List Char) : Bool :=
  (List.range s.length).all fun ℓ => decide (ℓ ≤ alen) || (tailMatch (s.drop ℓ)).isNone

/-! # Theorems -/

/-! ## Generic facts about the final field assembly -/

theorem orNull_isNone (o : Option (List Char)) : (orNull o).isNone = jsFalsy o := by
  unfold orNull
  split
  · simp_all
  · cases o with
    | none => simp_all [jsFalsy]
    | some l => simp_all

theorem notEmptyField_orNull (o : Option (List Char)) :
    notEmptyField (orNull o) = true := by
  unfold orNull
  split
  · rfl
  · cases o with
    | none => rfl
    | some l =>
      cases l with
      | nil => simp_all [jsFalsy]
      | cons c t => rfl

/-- C2: a `ParsedQuery` needs clarification exactly when a field is `null`,
and no returned field is the empty string. -/
theorem c2_invariant (q : List Char) :
    (parseUserQuery q).needsClarification
      = ((parseUserQuery q).businessType.isNone || (parseUserQuery q).location.isNone)
    ∧ notEmptyField (parseUserQuery q).businessType = true
    ∧ notEmptyField (parseUserQuery q).location = true := by
  unfold parseUserQuery
  exact ⟨by simp [orNull_isNone], by simp [notEmptyField_orNull], by simp [notEmptyField_orNull]⟩

/-- C7: the two concrete examples from the specification. -/
theorem c7_examples :
    parseUserQuery ("pharmacy in Pune".toList)
      = ⟨some ("pharmacy".toList), some ("Pune".toList), false⟩
    ∧ parseUserQuery ("coffee shop in Mumbai".toList)
      = ⟨some ("coffee shop".toList), some ("Mumbai".toList), false⟩ := by
  constructor <;> decide

/-! ## Gateway error handling -/

/-- C3, counterexample: on a transport-level `TypeError` from `fetch`, a
research operation does fail with the fixed connectivity error, but its
message does not name port 8000 (it names no port at all), contradicting the
claim that the message names the correct unreachable backend port. -/
theorem c3_counterexample :
    getComprehensiveResearch "cafe" "Pune" {} (fun _ => .throw "TypeError" "Failed to fetch")
      = .error ⟨"Error", researchConnMsg⟩
    ∧ strContains researchConnMsg "8000" = false
    ∧ strContains researchConnMsg "backend server" = true := by
  refine ⟨rfl, by decide, by decide⟩

/-- C3, amended: with a mocked transport throwing a `TypeError` whose message
mentions `fetch`, every gateway operation fails with the fixed connectivity
error of its backend: the research operations with the backend-server message
(which names no port), the CSV operations with the CSV message, which names
port 8001. -/
theorem c3_amended (bt loc city f sid um m : String) (o : ResearchOptions)
    (co : CityOptions) (hm : strContains m "fetch" = true) :
    getComprehensiveResearch bt loc o (fun _ => .throw "TypeError" m)
      = .error ⟨"Error", researchConnMsg⟩
    ∧ getCityOpportunities city co (fun _ => .throw "TypeError" m)
      = .error ⟨"Error", researchConnMsg⟩
    ∧ getRawScrapedData bt loc (fun _ => .throw "TypeError" m)
      = .error ⟨"Error", researchConnMsg⟩
    ∧ checkHealth (fun _ => .throw "TypeError" m)
      = .error ⟨"Error", researchConnMsg⟩
    ∧ uploadCSV f (fun _ => .throw "TypeError" m)
      = .error ⟨"Error", csvConnMsg⟩
    ∧ chatWithCSV sid um (fun _ => .throw "TypeError" m)
      = .error ⟨"Error", csvConnMsg⟩
    ∧ strContains csvConnMsg "8001" = true := by
  refine ⟨?_, ?_, ?_, ?_, ?_, ?_, by decide⟩ <;>
    simp [getComprehensiveResearch, getCityOpportunities, getRawScrapedData,
      checkHealth, uploadCSV, chatWithCSV, apiFetch, runFetch, hm]

theorem c3_amended_witness :
    strContains "fetch failed" "fetch" = true
    ∧ uploadCSV "data.csv" (fun _ => .throw "TypeError" "fetch failed")
        = .error ⟨"Error", csvConnMsg⟩
    ∧ checkHealth (fun _ => .throw "TypeError" "fetch failed")
        = .error ⟨"Error", researchConnMsg⟩ := by
  have h := c3_amended "b" "l" "c" "data.csv" "s" "u" "fetch failed" {} {} (by decide)
  exact ⟨by decide, h.2.2.2.2.1, h.2.2.2.1⟩

/-- C4: a non-2xx response whose body carries a non-empty `detail` field makes
every gateway operation fail with an `Error` whose message is exactly that
`detail` value. -/
theorem c4_detail_message (bt loc city f sid um : String) (o : ResearchOptions)
    (co : CityOptions) (st : Nat) (stx d body : String) (hne : d.isEmpty = false) :
    getComprehensiveResearch bt loc o (fun _ => .respond ⟨false, st, stx, some d, body⟩)
      = .error ⟨"Error", d⟩
    ∧ getCityOpportunities city co (fun _ => .respond ⟨false, st, stx, some d, body⟩)
      = .error ⟨"Error", d⟩
    ∧ getRawScrapedData bt loc (fun _ => .respond ⟨false, st, stx, some d, body⟩)
      = .error ⟨"Error", d⟩
    ∧ checkHealth (fun _ => .respond ⟨false, st, stx, some d, body⟩)
      = .error ⟨"Error", d⟩
    ∧ uploadCSV f (fun _ => .respond ⟨false, st, stx, some d, body⟩)
      = .error ⟨"Error", d⟩
    ∧ chatWithCSV sid um (fun _ => .respond ⟨false, st, stx, some d, body⟩)
      = .error ⟨"Error", d⟩ := by
  refine ⟨?_, ?_, ?_, ?_, ?_, ?_⟩ <;>
    simp [getComprehensiveResearch, getCityOpportunities, getRawScrapedData,
      checkHealth, uploadCSV, chatWithCSV, apiFetch, runFetch, errMessage, hne,
      strContains]

theorem c4_detail_message_witness :
    ("not found" : String).isEmpty = false
    ∧ getComprehensiveResearch "pharmacy" "Pune" {}
        (fun _ => .respond ⟨false, 404, "Not Found", some "not found", ""⟩)
      = .error ⟨"Error", "not found"⟩ := by
  have h := c4_detail_message "pharmacy" "Pune" "c" "f" "s" "u" {} {} 404 "Not Found"
    "not found" "" (by decide)
  exact ⟨by decide, h.1⟩

/-- C9, counterexample: when the error body has no usable `detail`, the
generic message is `"API Error: <status> <statusText>"`, not the claimed bare
`"<status> <statusText>"`. -/
theorem c9_counterexample :
    getComprehensiveResearch "cafe" "Delhi" {}
        (fun _ => .respond ⟨false, 404, "Not Found", none, ""⟩)
      = .error ⟨"Error", "API Error: 404 Not Found"⟩
    ∧ (("API Error: 404 Not Found" : String) == "404 Not Found") = false := by
  exact ⟨rfl, by decide⟩

/-- C9, amended: on a non-2xx response without a usable `detail` field, the
operation fails with an `Error` whose message is the generic status line
prefixed by the operation family's fixed prefix: `"API Error: "` for the four
research operations, `"CSV Upload Error: "` / `"CSV Chat Error: "` for the
CSV ones. -/
theorem c9_amended (bt loc city f sid um : String) (o : ResearchOptions)
    (co : CityOptions) (st : Nat) (stx body : String) (det : Option String)
    (hdet : det = none ∨ det = some "") :
    getComprehensiveResearch bt loc o (fun _ => .respond ⟨false, st, stx, det, body⟩)
      = .error ⟨"Error", "API Error: " ++ toString st ++ " " ++ stx⟩
    ∧ getCityOpportunities city co (fun _ => .respond ⟨false, st, stx, det, body⟩)
      = .error ⟨"Error", "API Error: " ++ toString st ++ " " ++ stx⟩
    ∧ getRawScrapedData bt loc (fun _ => .respond ⟨false, st, stx, det, body⟩)
      = .error ⟨"Error", "API Error: " ++ toString st ++ " " ++ stx⟩
    ∧ checkHealth (fun _ => .respond ⟨false, st, stx, det, body⟩)
      = .error ⟨"Error", "API Error: " ++ toString st ++ " " ++ stx⟩
    ∧ uploadCSV f (fun _ => .respond ⟨false, st, stx, det, body⟩)
      = .error ⟨"Error", "CSV Upload Error: " ++ toString st ++ " " ++ stx⟩
    ∧ chatWithCSV sid um (fun _ => .respond ⟨false, st, stx, det, body⟩)
      = .error ⟨"Error", "CSV Chat Error: " ++ toString st ++ " " ++ stx⟩ := by
  rcases hdet with h | h <;>
  · subst h
    refine ⟨?_, ?_, ?_, ?_, ?_, ?_⟩ <;>
      simp [getComprehensiveResearch, getCityOpportunities, getRawScrapedData,
        checkHealth, uploadCSV, chatWithCSV, apiFetch, runFetch, errMessage,
        strContains, String.isEmpty]

theorem c9_amended_witness :
    ((none : Option String) = none ∨ (none : Option String) = some "")
    ∧ getRawScrapedData "cafe" "Delhi"
        (fun _ => .respond ⟨false, 500, "Internal Server Error", none, ""⟩)
      = .error ⟨"Error", "API Error: 500 Internal Server Error"⟩ := by
  have h := c9_amended "cafe" "Delhi" "c" "f" "s" "u" {} {} 500
    "Internal Server Error" "" none (Or.inl rfl)
  exact ⟨Or.inl rfl, h.2.2.1⟩

theorem str_suffix_two (P R m : String) : m.toList <:+ (P ++ (R ++ m)).toList := by
  have h1 : m.toList <:+ (R ++ m).toList := by
    have e : (R ++ m).toList = R.toList ++ m.toList := by simp
    rw [e]
    exact List.suffix_append _ _
  have h2 : (R ++ m).toList <:+ (P ++ (R ++ m)).toList := by
    have e : (P ++ (R ++ m)).toList = P.toList ++ (R ++ m).toList := by simp
    rw [e]
    exact List.suffix_append _ _
  exact h1.trans h2

theorem mkParams3_last (k1 v1 k2 v2 k3 v3 : String) :
    (urlEncodeStr k3 ++ "=" ++ urlEncodeStr v3).toList
      <:+: (mkParams [(k1, v1), (k2, v2), (k3, v3)]).toList := by
  show (urlEncodeStr k3 ++ "=" ++ urlEncodeStr v3).toList <:+:
    (urlEncodeStr k1 ++ "=" ++ urlEncodeStr v1 ++ "&" ++
      (urlEncodeStr k2 ++ "=" ++ urlEncodeStr v2 ++ "&" ++
        (urlEncodeStr k3 ++ "=" ++ urlEncodeStr v3))).toList
  exact (str_suffix_two _ _ _).isInfix

/-- C10: with a falsy `maxOpportunities` option (absent or `0`), the query
string built by `getCityOpportunities` always says `max_opportunities=5`. -/
theorem c10_max_opportunities (city : String) (o : CityOptions)
    (h : o.maxOpportunities = none ∨ o.maxOpportunities = some 0) :
    "max_opportunities=5".toList <:+: (cityParams city o).toList := by
  have h5 : jsOrFive o.maxOpportunities = 5 := by
    rcases h with h | h <;> simp [h, jsOrFive]
  have henc : urlEncodeStr "max_opportunities" ++ "=" ++ urlEncodeStr (toString 5)
      = "max_opportunities=5" := by decide
  have hsuff := mkParams3_last "city" city
    "include_analysis" (boolStr (o.includeAnalysis.getD true))
    "max_opportunities" (toString 5)
  rw [henc] at hsuff
  unfold cityParams
  rw [h5]
  exact hsuff

theorem c10_max_opportunities_witness :
    (({} : CityOptions).maxOpportunities = none
      ∨ ({} : CityOptions).maxOpportunities = some 0)
    ∧ "max_opportunities=5".toList <:+: (cityParams "indore" {}).toList :=
  ⟨Or.inl rfl, c10_max_opportunities "indore" {} (Or.inl rfl)⟩

/-! ## The fallback city scan -/

theorem orNull_some (l : List Char) (h : l.isEmpty = false) : orNull (some l) = some l := by
  cases l with
  | nil => simp at h
  | cons c t => rfl

theorem cityScan_none (orig lower : List Char) (cities : List (List Char))
    (h : cities.all (fun c => (indexOfSub lower c).isNone) = true) :
    cityScan orig lower cities = (none, none) := by
  induction cities with
  | nil => rfl
  | cons city rest ih =>
    simp only [List.all_cons, Bool.and_eq_true] at h
    have h1 : indexOfSub lower city = none := by
      cases hc : indexOfSub lower city with
      | none => rfl
      | some v => rw [hc] at h; simp at h
    unfold cityScan
    rw [h1]
    exact ih h.2

theorem cityScan_found (orig lower : List Char) (cities : List (List Char))
    (city : List Char) (idx : Nat)
    (hf : cities.find? (fun c => (indexOfSub lower c).isSome) = some city)
    (hidx : indexOfSub lower city = some idx) :
    cityScan orig lower cities = (some (jsTrim (orig.take idx)), some (capFirst city)) := by
  induction cities with
  | nil => simp at hf
  | cons c0 rest ih =>
    by_cases hp : (indexOfSub lower c0).isSome = true
    · rw [@List.find?_cons_of_pos _ (fun c => (indexOfSub lower c).isSome) c0 rest hp] at hf
      have hc0 : c0 = city := by injection hf
      subst hc0
      unfold cityScan
      rw [hidx]
    · rw [@List.find?_cons_of_neg _ (fun c => (indexOfSub lower c).isSome) c0 rest hp] at hf
      have h0 : indexOfSub lower c0 = none := by
        cases hc : indexOfSub lower c0 with
        | none => rfl
        | some v => rw [hc] at hp; simp at hp
      unfold cityScan
      rw [h0]
      exact ih hf

/-- Every city of the hardcoded list survives the location cleanup unchanged
once its first letter is capitalised, and is non-empty. -/
theorem cities_ok :
    commonCities.all
      (fun c => !(capFirst c).isEmpty && decide (locClean (capFirst c) = capFirst c))
      = true := by
  decide

/-- C8: when the primary pattern fails and no listed city occurs in the
lowercased query, `parseUserQuery` returns both fields `null` and asks for
clarification. -/
theorem c8_no_match (q : List Char)
    (h1 : reMatch (origQ q) = none)
    (h2 : commonCities.all (fun c => (indexOfSub (lowerQ q) c).isNone) = true) :
    parseUserQuery q = ⟨none, none, true⟩ := by
  have hp : rawParse (origQ q) (lowerQ q) = (none, none) := by
    unfold rawParse
    rw [h1]
    exact cityScan_none _ _ _ h2
  simp [parseUserQuery, hp, cleanupBT?, cleanupLoc?, orNull, jsFalsy]

theorem c8_no_match_witness :
    reMatch (origQ ("hello".toList)) = none
    ∧ commonCities.all (fun c => (indexOfSub (lowerQ ("hello".toList)) c).isNone) = true
    ∧ parseUserQuery ("hello".toList) = ⟨none, none, true⟩ :=
  ⟨by decide, by decide, c8_no_match _ (by decide) (by decide)⟩

/-- C6: when the primary pattern fails, the first city in *list iteration
order* that occurs in the lowercased query becomes the location (first letter
capitalised, which the later cleanup keeps), and the businessType candidate is
the original-case text before that city's first occurrence (then cleaned). -/
theorem c6_fallback_city (q city : List Char) (idx : Nat)
    (h1 : reMatch (origQ q) = none)
    (h2 : commonCities.find? (fun c => (indexOfSub (lowerQ q) c).isSome) = some city)
    (h3 : indexOfSub (lowerQ q) city = some idx) :
    (parseUserQuery q).location = some (capFirst city)
    ∧ (parseUserQuery q).businessType
        = orNull (cleanupBT? (some (jsTrim ((origQ q).take idx)))) := by
  have hp : rawParse (origQ q) (lowerQ q)
      = (some (jsTrim ((origQ q).take idx)), some (capFirst city)) := by
    unfold rawParse
    rw [h1]
    exact cityScan_found _ _ _ _ _ h2 h3
  have hmem : city ∈ commonCities := List.mem_of_find?_eq_some h2
  have hcity := List.all_eq_true.mp cities_ok city hmem
  simp only [Bool.and_eq_true, Bool.not_eq_true', decide_eq_true_eq] at hcity
  constructor
  · have hloc : cleanupLoc? (some (capFirst city)) = some (capFirst city) := by
      unfold cleanupLoc?
      simp [hcity.1, hcity.2]
    simp [parseUserQuery, hp, hloc, orNull_some _ hcity.1]
  · simp [parseUserQuery, hp]

theorem c6_fallback_city_witness :
    reMatch (origQ ("bakery delhi".toList)) = none
    ∧ commonCities.find?
        (fun c => (indexOfSub (lowerQ ("bakery delhi".toList)) c).isSome)
        = some ("delhi".toList)
    ∧ indexOfSub (lowerQ ("bakery delhi".toList)) ("delhi".toList) = some 7
    ∧ (parseUserQuery ("bakery delhi".toList)).location = some ("Delhi".toList)
    ∧ (parseUserQuery ("bakery delhi".toList)).businessType = some ("bakery".toList) := by
  have h := c6_fallback_city ("bakery delhi".toList) ("delhi".toList) 7
    (by decide) (by decide) (by decide)
  refine ⟨by decide, by decide, by decide, ?_, ?_⟩
  · rw [h.1]; decide
  · rw [h.2]; decide

/-! ## Character-level facts about the ASCII `toUpper` model -/

theorem char_toNat_ofNat_lt (n : Nat) (h : n < 55296) : (Char.ofNat n).toNat = n := by
  unfold Char.ofNat
  rw [dif_pos (Or.inl (by omega : n < 0xd800))]
  simp [Char.ofNatAux, Char.toNat, UInt32.toNat]

theorem toNat_toUpper (c : Char) :
    (Char.toUpper c).toNat
      = if 97 ≤ c.toNat ∧ c.toNat ≤ 122 then c.toNat - 32 else c.toNat := by
  unfold Char.toUpper
  split <;> rename_i h
  · rw [if_pos h]
    exact char_toNat_ofNat_lt _ (by omega)
  · rw [if_neg (by intro hc; omega)]

theorem toUpper_eq_self (c : Char) (h : ¬(97 ≤ c.toNat ∧ c.toNat ≤ 122)) :
    Char.toUpper c = c := by
  unfold Char.toUpper
  show (if c.toNat ≥ 97 ∧ c.toNat ≤ 122 then Char.ofNat (c.toNat - 32) else c) = c
  rw [if_neg (fun hc => h ⟨hc.1, hc.2⟩)]

theorem toUpper_toUpper (c : Char) : (Char.toUpper c).toUpper = c.toUpper := by
  by_cases h : 97 ≤ c.toNat ∧ c.toNat ≤ 122
  · have h1 : (Char.toUpper c).toNat = c.toNat - 32 := by
      rw [toNat_toUpper, if_pos h]
    exact toUpper_eq_self _ (by omega)
  · rw [toUpper_eq_self c h]
    exact toUpper_eq_self c h

theorem wsCode_false_mid (n : Nat) (h1 : 65 ≤ n) (h2 : n ≤ 122) : wsCode n = false := by
  simp only [wsCode, Bool.or_eq_false_iff, Bool.and_eq_false_iff,
    decide_eq_false_iff_not]
  omega

theorem isWs_toUpper (c : Char) : isWs (Char.toUpper c) = isWs c := by
  by_cases h : 97 ≤ c.toNat ∧ c.toNat ≤ 122
  · have h1 : (Char.toUpper c).toNat = c.toNat - 32 := by
      rw [toNat_toUpper, if_pos h]
    unfold isWs
    rw [h1, wsCode_false_mid _ (by omega) (by omega),
      wsCode_false_mid _ (by omega) (by omega)]
  · rw [toUpper_eq_self c h]

/-! ## Trimming and edge-whitespace lemmas -/

theorem noEdgeWs_head {l : List Char} {x : Char}
    (h : noEdgeWs l = true) (hx : l.head? = some x) : isWs x = false := by
  unfold noEdgeWs at h
  rw [hx] at h
  simp only [Bool.and_eq_true, Bool.not_eq_true'] at h
  exact h.1

theorem noEdgeWs_last {l : List Char} {x : Char}
    (h : noEdgeWs l = true) (hx : l.getLast? = some x) : isWs x = false := by
  unfold noEdgeWs at h
  rw [hx] at h
  simp only [Bool.and_eq_true, Bool.not_eq_true'] at h
  exact h.2

theorem dropWhile_eq_self_of_head {p : Char → Bool} {l : List Char}
    (h : ∀ x, l.head? = some x → p x = false) : l.dropWhile p = l := by
  cases l with
  | nil => rfl
  | cons x t => simp [List.dropWhile_cons, h x rfl]

theorem trim_eq_self (l : List Char) (h : noEdgeWs l = true) : jsTrim l = l := by
  unfold jsTrim
  rw [dropWhile_eq_self_of_head (fun x hx => noEdgeWs_head h hx)]
  rw [dropWhile_eq_self_of_head (fun x hx => noEdgeWs_last h (by rwa [List.head?_reverse] at hx))]
  exact List.reverse_reverse l

theorem wsRun_cons_false {x : Char} {t : List Char} (h : isWs x = false) :
    wsRun (x :: t) = 0 := by
  simp [wsRun, List.takeWhile_cons, h]

theorem wsRun_cons_true {x : Char} {t : List Char} (h : isWs x = true) :
    wsRun (x :: t) = wsRun t + 1 := by
  simp [wsRun, List.takeWhile_cons, h]

theorem takeWhile_all_eq_self {p : Char → Bool} {l : List Char}
    (h : l.all p = true) : l.takeWhile p = l := by
  induction l with
  | nil => rfl
  | cons c t ih => simp_all [List.takeWhile_cons]

theorem dotRun_eq_length {l : List Char} (h : l.all isDot = true) :
    dotRun l = l.length := by
  rw [dotRun, takeWhile_all_eq_self h]

/-! ## `splitSp` / `titleWords` lemmas -/

theorem splitSp_ne_nil (l : List Char) : splitSp l ≠ [] := by
  cases l with
  | nil => simp [splitSp]
  | cons c t =>
    unfold splitSp
    cases splitSp t with
    | nil => simp
    | cons w ws =>
      by_cases hc : c = ' ' <;> simp [hc]

theorem splitSp_cons_of_ne {x : Char} {t : List Char} {w : List Char} {ws : List (List Char)}
    (hx : x ≠ ' ') (ht : splitSp t = w :: ws) : splitSp (x :: t) = (x :: w) :: ws := by
  unfold splitSp
  rw [ht]
  simp [hx]

theorem ne_space_of_not_ws {x : Char} (h : isWs x = false) : x ≠ ' ' := by
  intro hx
  rw [hx] at h
  simp [isWs, wsCode] at h

theorem titleWords_capFirst {B : List Char} (hBe : noEdgeWs B = true) :
    titleWords (capFirst B) = titleWords B := by
  cases B with
  | nil => rfl
  | cons b t =>
    have hb : isWs b = false := noEdgeWs_head hBe rfl
    have hbs : b ≠ ' ' := ne_space_of_not_ws hb
    have hbu : Char.toUpper b ≠ ' ' := by
      apply ne_space_of_not_ws
      rw [isWs_toUpper]
      exact hb
    obtain ⟨w, ws, hsp⟩ := List.exists_cons_of_ne_nil (splitSp_ne_nil t)
    unfold titleWords
    rw [show capFirst (b :: t) = Char.toUpper b :: t from rfl,
      splitSp_cons_of_ne hbu hsp, splitSp_cons_of_ne hbs hsp]
    simp only [List.map_cons]
    rw [show titleWord (Char.toUpper b :: w)
        = (Char.toUpper b).toUpper :: w.map Char.toLower from rfl,
      show titleWord (b :: w) = Char.toUpper b :: w.map Char.toLower from rfl,
      toUpper_toUpper]

theorem intercalate_head_ne_nil (sep : List Char) (x : List Char)
    (xs : List (List Char)) (hx : x ≠ []) :
    List.intercalate sep (x :: xs) ≠ [] := by
  cases xs with
  | nil => simpa [List.intercalate] using hx
  | cons y ys =>
    rw [List.intercalate]
    show x ++ _ ≠ []
    exact List.append_ne_nil_of_left_ne_nil hx _

theorem titleWords_ne_nil {b : Char} {t : List Char} (hb : isWs b = false) :
    titleWords (b :: t) ≠ [] := by
  obtain ⟨w, ws, hsp⟩ := List.exists_cons_of_ne_nil (splitSp_ne_nil t)
  unfold titleWords
  rw [splitSp_cons_of_ne (ne_space_of_not_ws hb) hsp]
  simp only [List.map_cons]
  exact intercalate_head_ne_nil _ _ _ (by simp [titleWord])

/-! ## Greedy-matcher lemmas -/

/-- If no tail matches for any group-1 length in `(t, ℓ]`, the greedy descent
from `ℓ` reaches the same result as the descent from `t`. -/
theorem g1Search_skip (s : List Char) (ℓ t : Nat) (hle : t ≤ ℓ)
    (h : ∀ m, t < m → m ≤ ℓ → tailMatch (s.drop m) = none) :
    g1Search s ℓ = g1Search s t := by
  induction ℓ with
  | zero =>
    have : t = 0 := by omega
    rw [this]
  | succ n ih =>
    rcases Nat.eq_or_lt_of_le hle with heq | hlt
    · rw [heq]
    · have hnone : tailMatch (s.drop (n + 1)) = none :=
        h (n + 1) (by omega) (by omega)
      rw [g1Search, hnone]
      exact ih (by omega) (fun m hm1 hm2 => h m hm1 (by omega))

theorem noLaterSplit_spec {alen : Nat} {s : List Char}
    (h : noLaterSplitB alen s = true) (m : Nat) (hm : alen < m) :
    tailMatch (s.drop m) = none := by
  by_cases hlt : m < s.length
  · have hh := List.all_eq_true.mp h m (List.mem_range.mpr hlt)
    simp only [Bool.or_eq_true, decide_eq_true_eq, Option.isNone_iff_eq_none] at hh
    rcases hh with hh | hh
    · omega
    · exact hh
  · rw [List.drop_eq_nil_of_le (by omega)]
    rfl

/-- Computation of `tailMatch` at the designated split point
`" " ++ conn ++ " " ++ B` (with `B` non-empty, line-terminator-free and not
starting with whitespace). -/
theorem tailMatch_at_split (c B : List Char)
    (hc : c = "in".toList ∨ c = "at".toList ∨ c = "near".toList)
    (hB : B ≠ [])
    (hBe : noEdgeWs B = true)
    (hBdot : B.all isDot = true) :
    tailMatch (' ' :: (c ++ ' ' :: B)) = some B := by
  obtain ⟨b0, t, rfl⟩ := List.exists_cons_of_ne_nil hB
  have hb0 : isWs b0 = false := noEdgeWs_head hBe rfl
  have hb0d : isDot b0 = true := by
    have := hBdot
    simp only [List.all_cons, Bool.and_eq_true] at this
    exact this.1
  have hwsp : isWs ' ' = true := by decide
  have hwB : wsRun (' ' :: b0 :: t) = 1 := by
    rw [wsRun_cons_true hwsp, wsRun_cons_false hb0]
  rcases hc with rfl | rfl | rfl
  · have hw : wsRun (' ' :: ('i' :: 'n' :: ' ' :: b0 :: t)) = 1 := by
      rw [wsRun_cons_true hwsp, wsRun_cons_false (by decide)]
    rw [show ("in".toList ++ ' ' :: b0 :: t) = 'i' :: 'n' :: ' ' :: b0 :: t from rfl,
      tailMatch, hw]
    rw [if_neg (by omega)]
    rw [show ((' ' :: ('i' :: 'n' :: ' ' :: b0 :: t)).drop 1)
        = 'i' :: 'n' :: ' ' :: b0 :: t from rfl]
    rw [show connAt ('i' :: 'n' :: ' ' :: b0 :: t) = some 2 from rfl]
    show ws2Search (' ' :: b0 :: t) (wsRun (' ' :: b0 :: t)) = some (b0 :: t)
    rw [hwB, ws2Search]
    show (if isDot b0 = true then some (List.takeWhile isDot (b0 :: t))
        else ws2Search (' ' :: b0 :: t) 0) = some (b0 :: t)
    rw [hb0d, if_pos rfl, takeWhile_all_eq_self hBdot]
  · have hw : wsRun (' ' :: ('a' :: 't' :: ' ' :: b0 :: t)) = 1 := by
      rw [wsRun_cons_true hwsp, wsRun_cons_false (by decide)]
    rw [show ("at".toList ++ ' ' :: b0 :: t) = 'a' :: 't' :: ' ' :: b0 :: t from rfl,
      tailMatch, hw]
    rw [if_neg (by omega)]
    rw [show ((' ' :: ('a' :: 't' :: ' ' :: b0 :: t)).drop 1)
        = 'a' :: 't' :: ' ' :: b0 :: t from rfl]
    rw [show connAt ('a' :: 't' :: ' ' :: b0 :: t) = some 2 from rfl]
    show ws2Search (' ' :: b0 :: t) (wsRun (' ' :: b0 :: t)) = some (b0 :: t)
    rw [hwB, ws2Search]
    show (if isDot b0 = true then some (List.takeWhile isDot (b0 :: t))
        else ws2Search (' ' :: b0 :: t) 0) = some (b0 :: t)
    rw [hb0d, if_pos rfl, takeWhile_all_eq_self hBdot]
  · have hw : wsRun (' ' :: ('n' :: 'e' :: 'a' :: 'r' :: ' ' :: b0 :: t)) = 1 := by
      rw [wsRun_cons_true hwsp, wsRun_cons_false (by decide)]
    rw [show ("near".toList ++ ' ' :: b0 :: t)
        = 'n' :: 'e' :: 'a' :: 'r' :: ' ' :: b0 :: t from rfl,
      tailMatch, hw]
    rw [if_neg (by omega)]
    rw [show ((' ' :: ('n' :: 'e' :: 'a' :: 'r' :: ' ' :: b0 :: t)).drop 1)
        = 'n' :: 'e' :: 'a' :: 'r' :: ' ' :: b0 :: t from rfl]
    rw [show connAt ('n' :: 'e' :: 'a' :: 'r' :: ' ' :: b0 :: t) = some 4 from rfl]
    show ws2Search (' ' :: b0 :: t) (wsRun (' ' :: b0 :: t)) = some (b0 :: t)
    rw [hwB, ws2Search]
    show (if isDot b0 = true then some (List.takeWhile isDot (b0 :: t))
        else ws2Search (' ' :: b0 :: t) 0) = some (b0 :: t)
    rw [hb0d, if_pos rfl, takeWhile_all_eq_self hBdot]

theorem jsFalsy_some (l : List Char) : jsFalsy (some l) = l.isEmpty := by
  cases l <;> rfl

theorem noEdgeWs_capFirst {B : List Char} (h : noEdgeWs B = true) :
    noEdgeWs (capFirst B) = true := by
  cases B with
  | nil => rfl
  | cons b t =>
    have hb : isWs b = false := noEdgeWs_head h rfl
    cases t with
    | nil =>
      show noEdgeWs [b.toUpper] = true
      unfold noEdgeWs
      simp [isWs_toUpper, hb]
    | cons y t' =>
      show noEdgeWs (b.toUpper :: y :: t') = true
      unfold noEdgeWs at h ⊢
      rw [List.getLast?_cons_cons] at h ⊢
      simp only [List.head?_cons, Bool.and_eq_true, Bool.not_eq_true'] at h ⊢
      exact ⟨by rw [isWs_toUpper]; exact hb, h.2⟩

/-- The central greedy-split theorem: on an input of the shape
`A ++ " " ++ conn ++ " " ++ B` where `A` and `B` are non-empty, contain no
line terminator, have no whitespace at their ends, no viable connector tail
starts after the designated one, `B` does not begin with a preposition, and
`A` survives cleanup non-empty, `parseUserQuery` returns exactly the cleaned
`A` and the title-cased `B`. -/
theorem parseSplit (A c B : List Char)
    (hc : c = "in".toList ∨ c = "at".toList ∨ c = "near".toList)
    (hA : A ≠ []) (hB : B ≠ [])
    (hAdot : A.all isDot = true) (hBdot : B.all isDot = true)
    (hAe : noEdgeWs A = true) (hBe : noEdgeWs B = true)
    (hlast : noLaterSplitB A.length (A ++ ' ' :: (c ++ ' ' :: B)) = true)
    (hstrip : stripLeadPrep (capFirst B) = capFirst B)
    (hclean : (bizCleanup A).isEmpty = false) :
    parseUserQuery (A ++ ' ' :: (c ++ ' ' :: B))
      = ⟨some (bizCleanup A), some (titleWords B), false⟩ := by
  obtain ⟨a, A', rfl⟩ := List.exists_cons_of_ne_nil hA
  obtain ⟨b0, B', rfl⟩ := List.exists_cons_of_ne_nil hB
  set s := (a :: A') ++ ' ' :: (c ++ ' ' :: b0 :: B') with hs
  have hcdot : c.all isDot = true := by rcases hc with rfl | rfl | rfl <;> decide
  have hsdot : s.all isDot = true := by
    rw [hs, List.all_append, hAdot, List.all_cons, List.all_append, hcdot,
      List.all_cons, hBdot]
    decide
  have hAlen : (a :: A').length ≤ s.length := by
    rw [hs]
    simp [List.length_append]
  have hdrop : s.drop (a :: A').length = ' ' :: (c ++ ' ' :: b0 :: B') := by
    rw [hs]
    exact List.drop_left _ _
  have htake : s.take (a :: A').length = a :: A' := by
    rw [hs]
    exact List.take_left _ _
  have htail : tailMatch (s.drop (a :: A').length) = some (b0 :: B') := by
    rw [hdrop]
    exact tailMatch_at_split c (b0 :: B') hc hB hBe hBdot
  have hg : g1Search s s.length = some (a :: A', b0 :: B') := by
    rw [g1Search_skip s s.length (a :: A').length hAlen
      (fun m hm _ => noLaterSplit_spec hlast m hm)]
    rw [show (a :: A').length = A'.length + 1 from rfl, g1Search]
    rw [show A'.length + 1 = (a :: A').length from rfl, htail, htake]
  have hre : reMatch s = some (a :: A', b0 :: B') := by
    rw [hs, show ((a :: A') ++ ' ' :: (c ++ ' ' :: b0 :: B'))
        = a :: (A' ++ ' ' :: (c ++ ' ' :: b0 :: B')) from rfl, reMatch]
    have hfold : a :: (A' ++ ' ' :: (c ++ ' ' :: b0 :: B')) = s := by
      rw [← List.cons_append]
    rw [hfold, dotRun_eq_length hsdot, hg]
  have hse : noEdgeWs s = true := by
    have hh : s.head? = some a := by rw [hs]; rfl
    have hl : s.getLast? = (b0 :: B').getLast? := by
      rw [hs, show ((a :: A') ++ ' ' :: (c ++ ' ' :: b0 :: B'))
          = (((a :: A') ++ ' ' :: c) ++ [' ']) ++ (b0 :: B') from by simp]
      exact List.getLast?_append_of_ne_nil _ hB
    obtain ⟨y, hy⟩ : ∃ y, (b0 :: B').getLast? = some y :=
      ⟨(b0 :: B').getLast hB, List.getLast?_eq_getLast _ hB⟩
    unfold noEdgeWs
    rw [hh, hl, hy]
    simp [noEdgeWs_head hAe rfl, noEdgeWs_last hBe hy]
  have hts : jsTrim s = s := trim_eq_self _ hse
  have hraw : rawParse (origQ s) (lowerQ s)
      = (some (jsTrim (a :: A')), some (capFirst (jsTrim (b0 :: B')))) := by
    rw [show origQ s = s from by rw [origQ, hts]]
    unfold rawParse
    rw [hre]
  have htA : jsTrim (a :: A') = a :: A' := trim_eq_self _ hAe
  have htB : jsTrim (b0 :: B') = b0 :: B' := trim_eq_self _ hBe
  have hb0 : isWs b0 = false := noEdgeWs_head hBe rfl
  have hloc : cleanupLoc? (some (capFirst (b0 :: B')))
      = some (titleWords (b0 :: B')) := by
    show (if (b0.toUpper :: B').isEmpty = true then some (b0.toUpper :: B')
        else some (locClean (b0.toUpper :: B'))) = some (titleWords (b0 :: B'))
    rw [if_neg (by simp)]
    unfold locClean
    rw [show (b0.toUpper :: B') = capFirst (b0 :: B') from rfl, hstrip]
    rw [trim_eq_self _ (noEdgeWs_capFirst hBe), titleWords_capFirst hBe]
  have hbt : cleanupBT? (some (a :: A')) = some (bizCleanup (a :: A')) := by
    show (if (a :: A').isEmpty = true then some (a :: A')
        else some (bizCleanup (a :: A'))) = some (bizCleanup (a :: A'))
    rw [if_neg (by simp)]
  have htwE : (titleWords (b0 :: B')).isEmpty = false := by
    cases htw : titleWords (b0 :: B') with
    | nil => exact absurd htw (titleWords_ne_nil hb0)
    | cons x xs => rfl
  show parseUserQuery s = _
  unfold parseUserQuery
  rw [hraw]
  show ParsedQuery.mk
      (orNull (cleanupBT? (some (jsTrim (a :: A')))))
      (orNull (cleanupLoc? (some (capFirst (jsTrim (b0 :: B'))))))
      (jsFalsy (cleanupBT? (some (jsTrim (a :: A'))))
        || jsFalsy (cleanupLoc? (some (capFirst (jsTrim (b0 :: B')))))) = _
  rw [htA, htB, hbt, hloc, orNull_some _ hclean, orNull_some _ htwE,
    jsFalsy_some, jsFalsy_some, hclean, htwE]
  rfl

theorem ne_nil_of_isEmpty_false {l : List Char} (h : l.isEmpty = false) : l ≠ [] := by
  cases l with
  | nil => simp at h
  | cons x t => simp

/-- C1, counterexample: `"x in y in z"` is of the claimed form with
`A = "x"`, `B = "y in z"` (both non-empty after cleanup), yet the greedy
regex splits at the *last* connector, so businessType is `"x in y"` (not the
cleaned `A = "x"`) and location is `"Z"` (not the title-cased `B`). -/
theorem c1_counterexample :
    "x in y in z".toList = "x".toList ++ ' ' :: ("in".toList ++ ' ' :: "y in z".toList)
    ∧ parseUserQuery ("x in y in z".toList)
      = ⟨some ("x in y".toList), some ("Z".toList), false⟩
    ∧ (bizCleanup ("x".toList)).isEmpty = false
    ∧ (some (bizCleanup ("x".toList)) == some ("x in y".toList)) = false
    ∧ (some (titleWords ("y in z".toList)) == some ("Z".toList)) = false := by
  refine ⟨by decide, by decide, by decide, by decide, by decide⟩

/-- C1, amended: for inputs `A ++ " " ++ conn ++ " " ++ B` with
`conn ∈ {in, at, near}`, where `A` and `B` are non-empty, contain no line
terminator, carry no whitespace at their ends, `A` is non-empty after
cleanup, no viable whitespace-connector-whitespace-text tail begins after the
designated connector (otherwise the greedy group 1 swallows it), and `B` does
not begin with a preposition (otherwise location cleanup strips it),
`parseUserQuery` returns businessType = cleaned `A`, location = title-cased
`B`, needsClarification = false. -/
theorem c1_amended (A c B : List Char)
    (hc : c = "in".toList ∨ c = "at".toList ∨ c = "near".toList)
    (hA : A.isEmpty = false) (hB : B.isEmpty = false)
    (hAdot : A.all isDot = true) (hBdot : B.all isDot = true)
    (hAe : noEdgeWs A = true) (hBe : noEdgeWs B = true)
    (hlast : noLaterSplitB A.length (A ++ ' ' :: (c ++ ' ' :: B)) = true)
    (hstrip : stripLeadPrep (capFirst B) = capFirst B)
    (hclean : (bizCleanup A).isEmpty = false) :
    parseUserQuery (A ++ ' ' :: (c ++ ' ' :: B))
      = ⟨some (bizCleanup A), some (titleWords B), false⟩ :=
  parseSplit A c B hc (ne_nil_of_isEmpty_false hA) (ne_nil_of_isEmpty_false hB)
    hAdot hBdot hAe hBe hlast hstrip hclean

theorem c1_amended_witness :
    ("bookstore".toList.isEmpty = false)
    ∧ ("jaipur".toList.isEmpty = false)
    ∧ ("bookstore".toList.all isDot = true)
    ∧ ("jaipur".toList.all isDot = true)
    ∧ (noEdgeWs "bookstore".toList = true)
    ∧ (noEdgeWs "jaipur".toList = true)
    ∧ (noLaterSplitB "bookstore".toList.length
        ("bookstore".toList ++ ' ' :: ("in".toList ++ ' ' :: "jaipur".toList)) = true)
    ∧ (stripLeadPrep (capFirst "jaipur".toList) = capFirst "jaipur".toList)
    ∧ ((bizCleanup "bookstore".toList).isEmpty = false)
    ∧ parseUserQuery ("bookstore in jaipur".toList)
      = ⟨some ("bookstore".toList), some ("Jaipur".toList), false⟩ := by
  have h := c1_amended "bookstore".toList "in".toList "jaipur".toList (Or.inl rfl)
    (by decide) (by decide) (by decide) (by decide) (by decide) (by decide)
    (by decide) (by decide) (by decide)
  refine ⟨by decide, by decide, by decide, by decide, by decide, by decide,
    by decide, by decide, by decide, ?_⟩
  rw [show "bookstore in jaipur".toList
      = "bookstore".toList ++ ' ' :: ("in".toList ++ ' ' :: "jaipur".toList) from by decide]
  rw [h]
  decide

/-- C5, counterexample: `"the a shop in pune"` parses successfully to
businessType `"a shop"` (the cleanup strips only one leading article pass),
but re-parsing the reconstructed `"a shop in Pune"` strips the article again
and yields businessType `"shop"`: parsing is not round-trip stable. -/
theorem c5_counterexample :
    parseUserQuery ("the a shop in pune".toList)
      = ⟨some ("a shop".toList), some ("Pune".toList), false⟩
    ∧ parseUserQuery ("a shop".toList ++ " in ".toList ++ "Pune".toList)
      = ⟨some ("shop".toList), some ("Pune".toList), false⟩
    ∧ (some ("shop".toList) == some ("a shop".toList)) = false := by
  refine ⟨by decide, by decide, by decide⟩

/-- C5, amended: re-parsing the reconstructed string of a successfully parsed
query yields the same ParsedQuery, provided the parsed businessType is a
fixed point of the cleanup chain (no second filler/article/preposition strip
applies), the parsed location is a fixed point of title-casing and does not
begin with a preposition, both parts are line-terminator-free with no edge
whitespace, and no viable connector tail starts inside the reconstructed
string after the inserted `" in "`. -/
theorem c5_amended (q B L : List Char)
    (_hq : parseUserQuery q = ⟨some B, some L, false⟩)
    (hfix : bizCleanup B = B)
    (hLfix : titleWords L = L)
    (hB : B.isEmpty = false) (hL : L.isEmpty = false)
    (hBdot : B.all isDot = true) (hLdot : L.all isDot = true)
    (hBe : noEdgeWs B = true) (hLe : noEdgeWs L = true)
    (hlast : noLaterSplitB B.length (B ++ ' ' :: ("in".toList ++ ' ' :: L)) = true)
    (hstrip : stripLeadPrep (capFirst L) = capFirst L) :
    parseUserQuery (B ++ ' ' :: ("in".toList ++ ' ' :: L))
      = ⟨some B, some L, false⟩ := by
  have h := parseSplit B "in".toList L (Or.inl rfl)
    (ne_nil_of_isEmpty_false hB) (ne_nil_of_isEmpty_false hL)
    hBdot hLdot hBe hLe hlast hstrip (by rw [hfix]; exact hB)
  rw [h, hfix, hLfix]

theorem c5_amended_witness :
    parseUserQuery ("grocery in indore".toList)
      = ⟨some ("grocery".toList), some ("Indore".toList), false⟩
    ∧ (bizCleanup "grocery".toList = "grocery".toList)
    ∧ (titleWords "Indore".toList = "Indore".toList)
    ∧ (noLaterSplitB "grocery".toList.length
        ("grocery".toList ++ ' ' :: ("in".toList ++ ' ' :: "Indore".toList)) = true)
    ∧ (stripLeadPrep (capFirst "Indore".toList) = capFirst "Indore".toList)
    ∧ parseUserQuery ("grocery".toList ++ ' ' :: ("in".toList ++ ' ' :: "Indore".toList))
      = ⟨some ("grocery".toList), some ("Indore".toList), false⟩ := by
  refine ⟨by decide, by decide, by decide, by decide, by decide, ?_⟩
  exact c5_amended "grocery in indore".toList "grocery".toList "Indore".toList
    (by decide) (by decide) (by decide) (by decide) (by decide) (by decide)
    (by decide) (by decide) (by decide) (by decide) (by decide)

end ApiJs
